import Mathlib

/-!
Shallow embedding of the signature-deciphering core in `pytube/cipher.py`:
the signature primitives `reverse`, `splice`, `swap`, the `js_splice`
emulation of the JavaScript array splice, the throttling helpers, the shape
matcher `map_functions`, and the `Cipher` facade methods `get_signature` and
`calculate_n`.  Python lists are modelled as Lean `List`s, Python slicing is
modelled explicitly (`pyIdx`, `pySlice`), Python `int` is `Int`, and
functions that can raise an exception return `Option`.
-/

namespace Pytube

/-- Normalization of a Python slice bound against a list of length `n`:
a negative bound counts from the end of the list (clamped below at `0`),
a non-negative bound is clamped above at `n`. -/
def pyIdx (n : Nat) (i : Int) : Nat :=
  if i < 0 then ((n : Int) + i).toNat else min i.toNat n

/-- Python slice `l[a:b]`. -/
def pySlice (l : List α) (a b : Int) : List α :=
  (l.take (pyIdx l.length b)).drop (pyIdx l.length a)

/-- Python slice `l[a:]`. -/
def pySliceFrom (l : List α) (a : Int) : List α :=
  l.drop (pyIdx l.length a)

/-- Translated from cipher.py `reverse(arr, _)` (line 639): the body is
`return arr[::-1]`, which builds a new reversed list and never writes to
`arr`.  The returned pair records `(contents of arr after the call, return
value)`, making the absence of in-place mutation observable. -/
def reverse (arr : List α) : List α × List α :=
  (arr, arr.reverse)

/-- Translated from cipher.py `splice(arr, b)` (line 659): `return arr[b:]`. -/
def splice (arr : List α) (b : Int) : List α :=
  pySliceFrom arr b

/-- Translated from cipher.py `swap(arr, b)` (line 676):
`r = b % len(arr)` followed by
`return list(chain([arr[r]], arr[1:r], [arr[0]], arr[r + 1:]))`.
On the empty list Python raises `ZeroDivisionError` (`b % 0`), modelled as
`none`.  For a non-empty list `r < arr.length`, so the `getD` default is
never used. -/
def swap (arr : List α) (b : Int) : Option (List α) :=
  match arr with
  | [] => none
  | a0 :: _ =>
    let r : Nat := (b % (arr.length : Int)).toNat
    some ([arr.getD r a0] ++ pySlice arr 1 (r : Int) ++ [a0]
      ++ pySliceFrom arr ((r : Int) + 1))

/-- The three semantic transform primitives that `map_functions`
(cipher.py line 874) can return: `reverse`, `splice`, `swap`. -/
inductive SigPrim
  | reverse
  | splice
  | swap
deriving DecidableEq, Repr

/-- One interpreter step of `Cipher.get_signature` (cipher.py line 132):
`signature = self.transform_map[name](signature, argument)`.  The argument is
a `Nat` because `Cipher.parse_function` produces it via `int(fn_arg)` from a
digit-only regex group.  The buffer is rebound to the primitive's return
value. -/
def applyPrim (p : SigPrim) (b : Nat) (s : List Char) : Option (List Char) :=
  match p with
  | .reverse => some (reverse s).2
  | .splice => some (splice s (b : Int))
  | .swap => swap s (b : Int)

/-- The plan-walking loop of `Cipher.get_signature` (cipher.py lines
130-143) over a transform plan whose entries have already been parsed to
`(primitive, integer argument)` pairs. -/
def runPlan : List (SigPrim × Nat) → List Char → Option (List Char)
  | [], s => some s
  | (p, b) :: rest, s =>
    match applyPrim p b s with
    | none => none
    | some s2 => runPlan rest s2

/-- Translated from `Cipher.get_signature` (cipher.py lines 117-145):
materialize the ciphered signature as a character list, fold the transform
plan over it, and join the result.  Each plan entry is modelled as the
`(primitive, argument)` pair that `parse_function` and the transform-map
lookup produce for it. -/
def get_signature (transform_plan : List (SigPrim × Nat))
    (ciphered_signature : String) : Option String :=
  (runPlan transform_plan ciphered_signature.toList).map fun l => String.mk l

/-- Sum of the operands of all `splice` steps of a transform plan. -/
def spliceSum : List (SigPrim × Nat) → Nat
  | [] => 0
  | (SigPrim.splice, b) :: rest => b + spliceSum rest
  | _ :: rest => spliceSum rest

/-- Guard under which the spec's length law holds: every `swap` step must
execute on a non-empty buffer with an operand that is not a multiple of the
buffer's current length.  The `Nat` length is threaded exactly as the
interpreter changes it (`reverse` preserves it, `splice b` truncates by
`b`). -/
def planLenOk : List (SigPrim × Nat) → Nat → Bool
  | [], _ => true
  | (SigPrim.reverse, _) :: rest, n => planLenOk rest n
  | (SigPrim.splice, b) :: rest, n => planLenOk rest (n - b)
  | (SigPrim.swap, b) :: rest, n => n ≠ 0 && b % n ≠ 0 && planLenOk rest n

/-- Translated from the start normalization of `js_splice` (cipher.py lines
846-855), two sequential conditionals:
`if start > len(arr): start = len(arr)` then
`if start < 0: start = len(arr) - start`.  Note the second branch computes
`len - start` (not `len + start`) and runs after the upper clamp, so a
negative `start` produces a value strictly greater than `len`. -/
def jsSpliceStart (n start : Int) : Int :=
  let s0 := if start > n then n else start
  if s0 < 0 then n - s0 else s0

/-- Translated from `js_splice(arr, start, delete_count=None, *items)`
(cipher.py lines 832-871).  The result pair is
`(returned deleted elements, contents of arr after the call)`.
`delete_count = none` models the omitted argument; Python's
`if not delete_count or delete_count >= len(arr) - start` treats an explicit
`0` exactly like an omitted argument because `not 0` is `True`. -/
def jsSplice (arr : List α) (start : Int) (delete_count : Option Int)
    (items : List α) : List α × List α :=
  let n : Int := (arr.length : Int)
  let s := jsSpliceStart n start
  let dc := match delete_count with
    | none => n - s
    | some d => if d = 0 ∨ d ≥ n - s then n - s else d
  (pySlice arr s (s + dc), pySlice arr 0 s ++ items ++ pySliceFrom arr (s + dc))

/-- Modelled from the spec: the claimed normalization of a negative `start`
for `js-splice`, namely `start + len` kept within `[0, len]`. -/
def jsSpliceStartClaimed (n start : Int) : Int :=
  min (max (start + n) 0) n

/-- Translated from `throttling_mod_func(d, e)` (cipher.py line 711):
`(e % len(d) + len(d)) % len(d)`.  For a non-empty `d` this is `e` reduced
to `[0, len d)`; on the empty list Python raises `ZeroDivisionError`, so
callers guard with a non-emptiness check. -/
def throttling_mod_func (d : List α) (e : Int) : Int :=
  (e % (d.length : Int) + (d.length : Int)) % (d.length : Int)

/-- Translated from `throttling_swap(d, e)` (cipher.py lines 824-829):
`e = throttling_mod_func(d, e); f = d[0]; d[0] = d[e]; d[e] = f`.
The result is the final contents of `d`; the empty list (where Python's
`throttling_mod_func` raises) is modelled as `none`.  For a non-empty `d`
the index `k` is below `d.length`, so the `getD` default is never used. -/
def throttling_swap (d : List α) (e : Int) : Option (List α) :=
  match d with
  | [] => none
  | d0 :: _ =>
    let k : Nat := (throttling_mod_func d e).toNat
    some ((d.set 0 (d.getD k d0)).set k d0)

/-- Translated from `throttling_nested_splice(d, e)` (cipher.py lines
767-790):
`e = throttling_mod_func(d, e);
inner_splice = js_splice(d, e, 1, d[0]);
js_splice(d, 0, 1, inner_splice[0])`.
The result is the final contents of `d`.  The empty list (Python
`ZeroDivisionError` inside `throttling_mod_func`) is `none`, and an empty
inner splice result (Python `IndexError` on `inner_splice[0]`) is also
`none`. -/
def throttling_nested_splice (d : List α) (e : Int) : Option (List α) :=
  match d with
  | [] => none
  | d0 :: _ =>
    let k := throttling_mod_func d e
    let inner := jsSplice d k (some 1) [d0]
    match inner.1.head? with
    | none => none
    | some x => some (jsSplice inner.2 0 (some 1) [x]).2

/-- Element type of the throttling function array.  In this revision of the
code `get_throttling_function_array` returns the empty list unconditionally
(cipher.py lines 556-558; everything after that `return` is unreachable), so
no element of the array is ever constructed and the type is uninhabited. -/
inductive ThrottleEl : Type

/-- Translated from `get_throttling_plan(js)` (cipher.py lines 621-636): the
function unconditionally returns the empty plan (the platform removed the
throttling transform).  A plan step is modelled as its list of integer
indices. -/
def get_throttling_plan (_js : String) : List (List Nat) :=
  []

/-- Translated from `get_throttling_function_array(js)` (cipher.py lines
548-558): the function unconditionally returns the empty array; the
conversion code below the `return []` is unreachable. -/
def get_throttling_function_array (_js : String) : List ThrottleEl :=
  []

/-- The step loop of `Cipher.calculate_n` (cipher.py lines 99-112): each step
looks up `self.throttling_array[int(step[0])]` and calls it.  On the empty
array any step raises `IndexError` (`none`); since `ThrottleEl` is
uninhabited a successful lookup is impossible, which the `nomatch` branch
records. -/
def runThrottlingSteps (arr : List ThrottleEl) : List (List Nat) → Option Unit
  | [] => some ()
  | step :: _rest =>
    match arr.get? (step.headD 0) with
    | none => none
    | some e => nomatch e

/-- The state of a `Cipher` instance that `calculate_n` reads and writes:
the extracted throttling plan and array and the memo slot `calculated_n`
(cipher.py lines 84-87). -/
structure Cipher where
  throttling_plan : List (List Nat)
  throttling_array : List ThrottleEl
  calculated_n : Option String

/-- The throttling-related part of `Cipher.__init__` (cipher.py lines 84-87):
`self.throttling_plan = get_throttling_plan(js)`,
`self.throttling_array = get_throttling_function_array(js)`,
`self.calculated_n = None`. -/
def Cipher.init (js : String) : Cipher :=
  { throttling_plan := get_throttling_plan js
    throttling_array := get_throttling_function_array js
    calculated_n := none }

/-- The recomputation path of `Cipher.calculate_n` (cipher.py lines 94-115):
substitute the input for `"b"` placeholders (a no-op on the empty array),
execute every plan step, then cache and return `"".join(initial_n)`.  The
result pair is `(returned string, post-call Cipher state)`. -/
def calculate_n_body (c : Cipher) (initial_n : List String) :
    Option (String × Cipher) :=
  match runThrottlingSteps c.throttling_array c.throttling_plan with
  | none => none
  | some _ =>
    let r := String.join initial_n
    some (r, { c with calculated_n := some r })

/-- Translated from `Cipher.calculate_n` (cipher.py lines 89-115).  The memo
check is `if self.calculated_n:`, Python truthiness: it returns the cached
value only when that value is a non-empty string; `None` and `""` both fall
through to the full recomputation. -/
def calculate_n (c : Cipher) (initial_n : List String) :
    Option (String × Cipher) :=
  match c.calculated_n with
  | some s => if s = "" then calculate_n_body c initial_n else some (s, c)
  | none => calculate_n_body c initial_n

/-- The ordered `(regex pattern, primitive)` table of `map_functions`
excluding its last entry (cipher.py lines 887-913): the tight and the
whitespace-tolerant shapes for `reverse`, `splice` and `swap`.  The pattern
strings are the source's regexes (braces written as escapes). -/
def knownShapes : List (String × SigPrim) :=
  [("\x7b\\w\\.reverse\\(\\)\x7d", SigPrim.reverse),
   ("\x7b\\w\\.splice\\(0,\\w\\)\x7d", SigPrim.splice),
   ("\x7bvar\\s\\w=\\w\\[0\\];\\w\\[0\\]=\\w\\[\\w\\%\\w.length\\];\\w\\[\\w\\]=\\w\x7d",
    SigPrim.swap),
   ("\x7bvar\\s\\w=\\w\\[0\\];\\w\\[0\\]=\\w\\[\\w\\%\\w.length\\];\\w\\[\\w\\%\\w.length\\]=\\w\x7d",
    SigPrim.swap),
   ("function\\([^)]*\\)\\s*\x7b\\s*\\w+\\.reverse\\(\\)\\s*\x7d", SigPrim.reverse),
   ("\x7b\\s*\\w+\\.reverse\\(\\)\\s*\x7d", SigPrim.reverse),
   ("function\\([^)]*\\)\\s*\x7b\\s*\\w+\\.splice\\(0,\\s*\\w+\\)\\s*\x7d", SigPrim.splice),
   ("\x7b\\s*\\w+\\.splice\\(0,\\s*\\w+\\)\\s*\x7d", SigPrim.splice),
   ("function\\([^)]*\\)\\s*\x7b\\s*var\\s+\\w+=\\w+\\[0\\];\\w+\\[0\\]=\\w+\\[\\w+%\\w+\\.length\\];\\w+\\[\\w+\\]=\\w+\\s*\x7d",
    SigPrim.swap),
   ("\x7b\\s*var\\s+\\w+=\\w+\\[0\\];\\w+\\[0\\]=\\w+\\[\\w+%\\w+\\.length\\];\\w+\\[\\w+\\]=\\w+\\s*\x7d",
    SigPrim.swap)]

/-- The last entry of the `map_functions` table (cipher.py line 915): the
very permissive fallback pattern that classifies any body containing a
function header as `reverse`. -/
def permissiveShape : String × SigPrim :=
  ("function\\([^)]*\\)", SigPrim.reverse)

/-- The full ordered pattern table of `map_functions` (cipher.py lines
887-916). -/
def mapper : List (String × SigPrim) :=
  knownShapes ++ [permissiveShape]

/-- Translated from `map_functions(js_func)` (cipher.py lines 874-926): scan
the pattern table in order and return the primitive of the first pattern
that matches; when no pattern matches at all, fall through the loop and
return `reverse` instead of raising (cipher.py lines 923-926).  The regex
engine is abstracted as the oracle `reMatch pattern text`, standing for the
truth of `re.search(pattern, text)`; the control flow is total for every
oracle, so no body causes a hard failure. -/
def map_functions (reMatch : String → String → Bool) (js_func : String) :
    SigPrim :=
  match mapper.find? fun pr => reMatch pr.1 js_func with
  | some pr => pr.2
  | none => SigPrim.reverse

/-! Helper lemmas about the Python slice model and the primitives.  These
are shared by several of the claim theorems below. -/

theorem pyIdx_natCast (n b : Nat) : pyIdx n (b : Int) = min b n := by
  simp [pyIdx]

theorem take_min_length (l : List α) (b : Nat) :
    l.take (min b l.length) = l.take b := by
  rcases Nat.le_total b l.length with h | h
  · rw [Nat.min_eq_left h]
  · rw [Nat.min_eq_right h, List.take_length, List.take_of_length_le h]

theorem drop_min_of_le (l : List α) (a n : Nat) (h : l.length ≤ n) :
    l.drop (min a n) = l.drop a := by
  rcases Nat.le_total a n with h2 | h2
  · rw [Nat.min_eq_left h2]
  · rw [Nat.min_eq_right h2, List.drop_eq_nil_of_le h,
      List.drop_eq_nil_of_le (Nat.le_trans h h2)]

/-- On natural-number bounds the Python slice `l[a:b]` is plain
`take`/`drop`. -/
theorem pySlice_natCast (l : List α) (a b : Nat) :
    pySlice l (a : Int) (b : Int) = (l.take b).drop a := by
  rw [pySlice, pyIdx_natCast, pyIdx_natCast, take_min_length,
    drop_min_of_le _ _ _ (by simp [List.length_take])]

/-- On a natural-number bound the Python slice `l[b:]` is plain `drop`. -/
theorem pySliceFrom_natCast (l : List α) (b : Nat) :
    pySliceFrom l (b : Int) = l.drop b := by
  rw [pySliceFrom, pyIdx_natCast, drop_min_of_le _ _ _ (Nat.le_refl _)]

/-- Evaluation of `js_splice` with an in-range start and an explicit
delete count of `1` (the only calling pattern of
`throttling_nested_splice`): it deletes the single element at `k` and
inserts `x` there. -/
theorem jsSplice_one (l : List α) (k : Nat) (x : α) (hk : k < l.length) :
    jsSplice l (k : Int) (some 1) [x]
      = ((l.drop k).take 1, l.take k ++ [x] ++ l.drop (k + 1)) := by
  have hkn : (k : Int) < (l.length : Int) := by exact_mod_cast hk
  have h1 : ¬ ((k : Int) > (l.length : Int)) := by omega
  have h2 : ¬ ((k : Int) < 0) := by omega
  have hstart : jsSpliceStart (l.length : Int) (k : Int) = (k : Int) := by
    simp [jsSpliceStart, h1, h2]
  have hdc : (if (1 : Int) = 0 ∨ (1 : Int) ≥ (l.length : Int) - (k : Int)
      then (l.length : Int) - (k : Int) else 1) = 1 := by
    split_ifs with h
    · rcases h with h | h
      · omega
      · omega
    · rfl
  rw [jsSplice, hstart]
  rw [hdc]
  have hcast1 : (k : Int) + 1 = ((k + 1 : Nat) : Int) := by push_cast; ring
  rw [hcast1, pySlice_natCast]
  have hcast0 : (0 : Int) = ((0 : Nat) : Int) := rfl
  rw [hcast0, pySlice_natCast, pySliceFrom_natCast]
  rw [List.drop_take]
  simp [Nat.add_sub_cancel_left]

/-- The in-place swap of elements `0` and `k` written with `List.set`
equals the take/append/drop shape that the double splice of
`throttling_nested_splice` produces. -/
theorem swap_list_shape (d0 : α) (tl : List α) (k : Nat)
    (hk : k < (d0 :: tl).length) :
    ((d0 :: tl).set 0 ((d0 :: tl).getD k d0)).set k d0
      = (d0 :: tl)[k] :: ((d0 :: tl).take k ++ [d0]
          ++ (d0 :: tl).drop (k + 1)).drop 1 := by
  cases k with
  | zero => simp
  | succ j =>
    have hj : j < tl.length := by simpa using hk
    have hget : (d0 :: tl).getD (j + 1) d0 = tl[j] := by
      simp [List.getD_eq_getElem?_getD, List.getElem?_eq_getElem hj]
    rw [hget]
    simp only [List.set_cons_zero, List.set_cons_succ, List.getElem_cons_succ,
      List.take_succ_cons, List.drop_succ_cons, List.cons_append,
      List.drop_one, List.tail_cons]
    rw [List.set_eq_take_cons_drop _ hj]
    simp

/-- `swap` on a non-empty list whose operand is not a multiple of the
length succeeds and preserves the length. -/
theorem swap_length (a0 : α) (tl : List α) (b : Nat)
    (hb : b % (a0 :: tl).length ≠ 0) :
    ∃ out, swap (a0 :: tl) (b : Int) = some out
      ∧ out.length = (a0 :: tl).length := by
  have hr : ((b : Int) % ((a0 :: tl).length : Int)).toNat
      = b % (a0 :: tl).length := by
    rw [← Int.natCast_mod, Int.toNat_natCast]
  have hrlt : b % (a0 :: tl).length < (a0 :: tl).length :=
    Nat.mod_lt _ (by simp)
  refine ⟨_, rfl, ?_⟩
  simp only [swap, hr]
  have h1 : (1 : Int) = ((1 : Nat) : Int) := rfl
  have h2 : ((b % (a0 :: tl).length : Nat) : Int) + 1
      = ((b % (a0 :: tl).length + 1 : Nat) : Int) := by push_cast; ring
  rw [h2, h1, pySlice_natCast, pySliceFrom_natCast]
  simp only [List.length_append, List.length_cons, List.length_singleton,
    List.length_drop, List.length_take]
  simp only [List.length_cons] at hrlt hb
  rw [List.length_nil, inf_eq_left.mpr hrlt.le]
  omega

/-- The interpreter loop of `get_signature` obeys the length law whenever
the `planLenOk` guard holds along the execution. -/
theorem runPlan_length (plan : List (SigPrim × Nat)) :
    ∀ (s : List Char), planLenOk plan s.length = true →
      ∃ out, runPlan plan s = some out
        ∧ out.length = s.length - spliceSum plan := by
  induction plan with
  | nil =>
    intro s _
    exact ⟨s, rfl, by simp [spliceSum]⟩
  | cons step rest ih =>
    obtain ⟨p, b⟩ := step
    intro s h
    cases p with
    | reverse =>
      simp only [planLenOk] at h
      obtain ⟨out, h1, h2⟩ := ih s.reverse (by simpa using h)
      refine ⟨out, ?_, ?_⟩
      · simp only [runPlan, applyPrim, reverse]
        exact h1
      · simpa [spliceSum] using h2
    | splice =>
      simp only [planLenOk] at h
      obtain ⟨out, h1, h2⟩ := ih (s.drop b) (by simpa using h)
      refine ⟨out, ?_, ?_⟩
      · simp only [runPlan, applyPrim, splice, pySliceFrom_natCast]
        exact h1
      · rw [h2]
        simp only [spliceSum, List.length_drop]
        omega
    | swap =>
      simp only [planLenOk, Bool.and_eq_true, decide_eq_true_eq,
        bne_iff_ne, ne_eq] at h
      obtain ⟨⟨hn, hb⟩, hrest⟩ := h
      cases s with
      | nil => simp at hn
      | cons a0 tl =>
        obtain ⟨s2, hs2, hlen2⟩ := swap_length a0 tl b hb
        obtain ⟨out, h1, h2⟩ := ih s2 (by rw [hlen2]; exact hrest)
        refine ⟨out, ?_, ?_⟩
        · simp only [runPlan, applyPrim, hs2]
          exact h1
        · rw [h2, hlen2]
          simp [spliceSum]

/-- C1: the claim says `swap(a, b)` exchanges positions `0` and
`r = b mod len(a)` and that `r = 0` leaves the sequence unchanged, so plan
`[swap 3]` on `"ABC"` should yield `"ABC"`.  The code disagrees with the
claim (and with its own docstring, which declares equivalence to the
JavaScript `var c=a[0];a[0]=a[b%a.length];a[b]=c`, an identity when
`b = 0`): at `r = 0` the chain expression duplicates the head, so
`swap(['A','B','C'], 3)` returns `['A','A','B','C']` and the plan yields
`"AABC"`, a string of length 4. -/
theorem swap_mod_zero_bug :
    swap ['A', 'B', 'C'] 3 = some ['A', 'A', 'B', 'C'] ∧
    swap ['A', 'B', 'C'] 0 = some ['A', 'A', 'B', 'C'] ∧
    get_signature [(SigPrim.swap, 3)] "ABC" = some "AABC" ∧
    some "AABC" ≠ some "ABC" := by
  exact ⟨by decide, by decide, by decide, by decide⟩

/-- C2 counterexample: the length law fails as stated.  For the plan
`[swap 3]` on `"ABC"` no splice step executes, yet the output `"AABC"` has
length 4, not the input length 3, because `swap` with operand divisible by
the buffer length duplicates the head. -/
theorem get_signature_length_law_counterexample :
    get_signature [(SigPrim.swap, 3)] "ABC" = some "AABC" ∧
    spliceSum [(SigPrim.swap, 3)] = 0 ∧
    ("AABC" : String).length ≠ ("ABC" : String).length -
      spliceSum [(SigPrim.swap, 3)] := by
  exact ⟨by decide, by decide, by decide⟩

/-- C3 counterexample: memoization is not unconditional.  On a fresh
`Cipher` a first `calculate_n` call with the empty input returns `""`; the
memo check `if self.calculated_n:` is a Python truthiness test, so the
cached `""` is ignored and a second call with `["a"]` returns `"a"`, not
the first call's result. -/
theorem calculate_n_memo_counterexample :
    (calculate_n (Cipher.init "") []).map Prod.fst = some "" ∧
    ((calculate_n (Cipher.init "") []).bind fun p =>
      calculate_n p.2 ["a"]).map Prod.fst = some "a" ∧
    ("a" : String) ≠ "" := by
  exact ⟨rfl, rfl, by decide⟩

/-- C4 counterexample: the negative-start branch of `js_splice` computes
`len(arr) - start` (cipher.py line 852), not `start + len(arr)` clamped to
`[0, len]`.  At `arr = [1,2,3]`, `start = -1` the claimed effective start is
`2` but the code produces `4`; consequently the call deletes nothing and
leaves the array unchanged, where the claimed semantics would delete `[3]`
and leave `[1, 2]`. -/
theorem js_splice_negative_start_counterexample :
    jsSpliceStart 3 (-1) = 4 ∧
    jsSpliceStart 3 (-1) ≠ jsSpliceStartClaimed 3 (-1) ∧
    jsSplice [1, 2, 3] (-1) none ([] : List Int) = ([], [1, 2, 3]) ∧
    (([], [1, 2, 3]) : List Int × List Int) ≠ ([3], [1, 2]) := by
  exact ⟨by decide, by decide, by decide, by decide⟩

/-- C5 counterexample: an explicit `delete_count` of `0` does not remove
zero elements.  Python's `if not delete_count or ...` treats `0` as falsy,
so the default `len - start` kicks in: `js_splice([1,2,3], 0, 0)` deletes
all three elements and empties the array, where the claim predicts no
removal. -/
theorem js_splice_zero_delete_counterexample :
    (jsSplice [1, 2, 3] 0 (some 0) ([] : List Int)).1.length = 3 ∧
    jsSplice [1, 2, 3] 0 (some 0) ([] : List Int) = ([1, 2, 3], []) := by
  exact ⟨by decide, by decide⟩

/-- C6: with the extracted throttling plan and array both empty (the current
epoch: both extractors return empty unconditionally), a first `calculate_n`
call on a fresh `Cipher` returns the join of its input sequence; in
particular `['7','3','k','Q']` yields `"73kQ"`. -/
theorem calculate_n_identity_current_epoch :
    (∀ (js : String) (xs : List String),
      (calculate_n (Cipher.init js) xs).map Prod.fst = some (String.join xs)) ∧
    (calculate_n (Cipher.init "") ["7", "3", "k", "Q"]).map Prod.fst
      = some "73kQ" := by
  exact ⟨fun _ _ => rfl, rfl⟩

/-- C9 counterexample: the signature primitive `reverse` is not an in-place
reversal.  Its body is `return arr[::-1]`, which never writes to the
argument: after the call the buffer passed as `a` still holds the original
contents, not the reversed ones. -/
theorem reverse_not_in_place_counterexample :
    (reverse ['a', 'b']).1 = ['a', 'b'] ∧
    (reverse ['a', 'b']).1 ≠ ['b', 'a'] := by
  exact ⟨by decide, by decide⟩

/-- C9 amended: `reverse` returns a new reversed list and leaves the passed
buffer unchanged; `get_signature` then rebinds the signature buffer to the
returned value, so after a `reverse` step the interpreter's buffer holds the
reversed contents. -/
theorem reverse_returns_reversed_copy :
    (∀ (arr : List Char), reverse arr = (arr, arr.reverse)) ∧
    (∀ (b : Nat) (s : List Char),
      applyPrim SigPrim.reverse b s = some s.reverse) := by
  exact ⟨fun _ => rfl, fun _ _ => rfl⟩

/-- C10: an empty first result is not cached.  The memo check tests Python
truthiness of the stored value, so after a first call that computed `""`
(empty input), every later call re-executes the full computation on its own
input and returns the join of that input. -/
theorem calculate_n_empty_result_not_cached :
    (calculate_n (Cipher.init "") []).map Prod.fst = some "" ∧
    ∀ (ys : List String),
      ((calculate_n (Cipher.init "") []).bind fun p =>
        calculate_n p.2 ys).map Prod.fst = some (String.join ys) := by
  exact ⟨rfl, fun _ => rfl⟩

/-- C2 amended: the returned string's length equals the input length minus
the sum of the splice operands (capped at the input length, via truncated
natural subtraction threaded through the guard), provided every `swap` step
executes on a non-empty buffer with an operand that is not a multiple of
the buffer's current length.  The counterexample above forces the proviso:
a `swap` whose operand is a multiple of the buffer length duplicates the
head and lengthens the buffer by one instead. -/
theorem get_signature_length_law_amended (plan : List (SigPrim × Nat))
    (cs : String) (h : planLenOk plan cs.length = true) :
    (get_signature plan cs).map String.length
      = some (cs.length - spliceSum plan) := by
  obtain ⟨out, h1, h2⟩ := runPlan_length plan cs.toList (by
    have hl : cs.toList.length = cs.length := rfl
    rw [hl]; exact h)
  rw [get_signature, h1]
  have hmk : (Option.map String.length
      (Option.map (fun l => String.mk l) (some out)))
      = some out.length := rfl
  rw [hmk, h2]
  rfl

/-- Witness for C2 amended at the spec's scenario 1: the plan
`[swap 2, reverse, splice 1]` on `"ABCDEF"` satisfies the guard and the
output `"EDABC"` has length `6 - 1 = 5`. -/
theorem get_signature_length_law_witness :
    planLenOk [(SigPrim.swap, 2), (SigPrim.reverse, 0), (SigPrim.splice, 1)]
      ("ABCDEF" : String).length = true ∧
    (get_signature
        [(SigPrim.swap, 2), (SigPrim.reverse, 0), (SigPrim.splice, 1)]
        "ABCDEF").map String.length
      = some (("ABCDEF" : String).length
          - spliceSum [(SigPrim.swap, 2), (SigPrim.reverse, 0),
              (SigPrim.splice, 1)]) :=
  ⟨by decide, get_signature_length_law_amended _ _ (by decide)⟩

/-- C3 amended: after a first `calculate_n` call that completes with a
non-empty result, every subsequent call, with any input, returns that first
result and leaves the state unchanged.  (The counterexample above forces
the non-emptiness proviso: an empty first result is falsy and is not served
from the memo.) -/
theorem calculate_n_memo_nonempty_amended (js : String) (xs : List String)
    (s : String) (c1 : Cipher)
    (h : calculate_n (Cipher.init js) xs = some (s, c1)) (hs : s ≠ "")
    (ys : List String) : calculate_n c1 ys = some (s, c1) := by
  have h2 : calculate_n (Cipher.init js) xs
      = some (String.join xs,
          { throttling_plan := [], throttling_array := [],
            calculated_n := some (String.join xs) }) := rfl
  rw [h2] at h
  simp only [Option.some.injEq, Prod.mk.injEq] at h
  obtain ⟨h4, h5⟩ := h
  subst h4
  subst h5
  simp only [calculate_n]
  rw [if_neg hs]

/-- Witness for C3 amended: the first call computes `"73kQ"` (non-empty)
and a second call with the unrelated input `["z"]` returns `"73kQ"`
again. -/
theorem calculate_n_memo_nonempty_witness :
    calculate_n (Cipher.init "") ["7", "3", "k", "Q"]
      = some ("73kQ",
          { throttling_plan := [], throttling_array := [],
            calculated_n := some "73kQ" }) ∧
    ("73kQ" : String) ≠ "" ∧
    calculate_n
        { throttling_plan := [], throttling_array := [],
          calculated_n := some "73kQ" } ["z"]
      = some ("73kQ",
          { throttling_plan := [], throttling_array := [],
            calculated_n := some "73kQ" }) :=
  ⟨rfl, by decide,
   calculate_n_memo_nonempty_amended "" ["7", "3", "k", "Q"] "73kQ" _ rfl
     (by decide) ["z"]⟩

/-- C4 amended: for every negative `start`, `js_splice` sets the effective
start index to `len(arr) - start` (that is, `len + |start|`), a value
strictly greater than `len(arr)`, and performs no further clamping (the
upper clamp ran before the negative branch). -/
theorem js_splice_negative_start_amended (n start : Int)
    (hn : 0 ≤ n) (h : start < 0) :
    jsSpliceStart n start = n - start ∧ n < jsSpliceStart n start := by
  simp only [jsSpliceStart]
  split_ifs <;> omega

/-- Witness for C4 amended at `len = 3`, `start = -1`: the effective start
is `4 > 3`. -/
theorem js_splice_negative_start_witness :
    (0 : Int) ≤ 3 ∧ (-1 : Int) < 0 ∧
    (jsSpliceStart 3 (-1) = 3 - (-1) ∧ (3 : Int) < jsSpliceStart 3 (-1)) :=
  ⟨by decide, by decide,
   js_splice_negative_start_amended 3 (-1) (by decide) (by decide)⟩

/-- C5 amended: with an in-range `start` and an explicitly provided
`delete_count` `d` satisfying `0 < d < len - start`, `js_splice` removes
exactly `d` elements at `start` and inserts the items there.  The
counterexample above forces the strictness of `0 < d`: an explicit `0` is
falsy in Python and is treated like an omitted argument, removing
`len - start` elements. -/
theorem js_splice_explicit_delete_amended (arr : List α) (start d : Int)
    (items : List α) (h0 : 0 ≤ start) (h2 : 0 < d)
    (h3 : d < (arr.length : Int) - start) :
    (jsSplice arr start (some d) items).1 = (arr.drop start.toNat).take d.toNat
    ∧ (jsSplice arr start (some d) items).1.length = d.toNat
    ∧ (jsSplice arr start (some d) items).2
        = arr.take start.toNat ++ items ++ arr.drop (start.toNat + d.toNat) := by
  obtain ⟨sn, rfl⟩ : ∃ sn : Nat, start = (sn : Int) :=
    ⟨start.toNat, (Int.toNat_of_nonneg h0).symm⟩
  obtain ⟨dn, rfl⟩ : ∃ dn : Nat, d = (dn : Int) :=
    ⟨d.toNat, (Int.toNat_of_nonneg h2.le).symm⟩
  have hA : ¬ ((sn : Int) > (arr.length : Int)) := by omega
  have hB : ¬ ((sn : Int) < 0) := by omega
  have hstart : jsSpliceStart (arr.length : Int) (sn : Int) = (sn : Int) := by
    simp only [jsSpliceStart, hA, if_false]
    rw [if_neg hB]
  have hdc : (if (dn : Int) = 0 ∨ (dn : Int) ≥ (arr.length : Int) - (sn : Int)
      then (arr.length : Int) - (sn : Int) else (dn : Int)) = (dn : Int) := by
    rw [if_neg]
    push_neg
    exact ⟨by omega, by omega⟩
  have hsum : (sn : Int) + (dn : Int) = ((sn + dn : Nat) : Int) := by
    push_cast; ring
  have hsplit : jsSplice arr (sn : Int) (some (dn : Int)) items
      = ((arr.take (sn + dn)).drop sn,
         arr.take sn ++ items ++ arr.drop (sn + dn)) := by
    rw [jsSplice, hstart, hdc, hsum, pySlice_natCast, pySliceFrom_natCast]
    have h00 : (0 : Int) = ((0 : Nat) : Int) := rfl
    rw [h00, pySlice_natCast]
    rfl
  rw [hsplit]
  simp only [Int.toNat_natCast]
  refine ⟨?_, ?_, ?_⟩
  · rw [List.drop_take]
    simp [Nat.add_sub_cancel_left]
  · rw [List.drop_take]
    simp only [Nat.add_sub_cancel_left, List.length_take, List.length_drop]
    have hd : dn < arr.length - sn := by omega
    omega
  · trivial

/-- Witness for C5 amended: `js_splice([10,20,30,40], 1, 2, 99)` deletes
exactly the two elements `[20, 30]` and yields `[10, 99, 40]`. -/
theorem js_splice_explicit_delete_witness :
    ((0 : Int) ≤ 1 ∧ (0 : Int) < 2
      ∧ (2 : Int) < ((([10, 20, 30, 40] : List Int).length : Int) - 1))
    ∧ ((jsSplice ([10, 20, 30, 40] : List Int) 1 (some 2) [99]).1
          = (([10, 20, 30, 40] : List Int).drop (1 : Int).toNat).take
              (2 : Int).toNat
        ∧ (jsSplice ([10, 20, 30, 40] : List Int) 1 (some 2) [99]).1.length
            = (2 : Int).toNat
        ∧ (jsSplice ([10, 20, 30, 40] : List Int) 1 (some 2) [99]).2
            = ([10, 20, 30, 40] : List Int).take (1 : Int).toNat ++ [99]
              ++ ([10, 20, 30, 40] : List Int).drop
                  ((1 : Int).toNat + (2 : Int).toNat)) :=
  ⟨⟨by decide, by decide, by decide⟩,
   js_splice_explicit_delete_amended _ 1 2 _ (by decide) (by decide)
     (by decide)⟩

/-- C7: for every list `d` and integer `e`, `throttling_nested_splice` and
`throttling_swap` produce the same final contents of `d`: elements `0` and
`k = ((e mod n) + n) mod n` are exchanged and all others are unchanged (on
the empty list both raise, modelled as `none`, so the equivalence holds for
every `d`, in particular every non-empty one). -/
theorem throttling_nested_splice_eq_swap (d : List α) (e : Int) :
    throttling_nested_splice d e = throttling_swap d e := by
  cases d with
  | nil => rfl
  | cons d0 tl =>
    have hpos : (0 : Int) < ((d0 :: tl).length : Int) := by
      simp only [List.length_cons]
      omega
    have hne : ((d0 :: tl).length : Int) ≠ 0 := by omega
    have hmod0 : 0 ≤ throttling_mod_func (d0 :: tl) e :=
      Int.emod_nonneg _ hne
    have hmodlt : throttling_mod_func (d0 :: tl) e
        < ((d0 :: tl).length : Int) :=
      Int.emod_lt_of_pos _ hpos
    have hcast : ((throttling_mod_func (d0 :: tl) e).toNat : Int)
        = throttling_mod_func (d0 :: tl) e := Int.toNat_of_nonneg hmod0
    set k : Nat := (throttling_mod_func (d0 :: tl) e).toNat with hkdef
    have hklt : k < (d0 :: tl).length := by
      have hki : (k : Int) < ((d0 :: tl).length : Int) := by
        rw [hcast]; exact hmodlt
      exact_mod_cast hki
    simp only [throttling_nested_splice, throttling_swap]
    rw [← hcast]
    rw [jsSplice_one _ _ _ hklt]
    have hdrop : (d0 :: tl).drop k
        = (d0 :: tl)[k] :: (d0 :: tl).drop (k + 1) :=
      List.drop_eq_getElem_cons hklt
    rw [hdrop]
    simp only [List.take_succ_cons, List.take_zero, List.head?_cons]
    have hlen1 : 0 < ((d0 :: tl).take k ++ [d0]
        ++ (d0 :: tl).drop (k + 1)).length := by
      simp
    have h0 : (0 : Int) = ((0 : Nat) : Int) := rfl
    rw [h0, jsSplice_one _ _ _ hlen1]
    simp only [Int.toNat_natCast]
    rw [swap_list_shape _ _ _ hklt]
    simp

/-- C8: `map_functions` never raises and is total: when none of the known
shapes matches a primitive body, the body is classified as `reverse` — by
the very permissive final pattern when the body still looks like a
function, and by the explicit post-loop fallback otherwise.  The regex
engine is abstracted as the Boolean oracle `reMatch`, so the statement
covers every possible matching outcome. -/
theorem map_functions_fallback (reMatch : String → String → Bool)
    (js_func : String)
    (h : ∀ pr ∈ knownShapes, reMatch pr.1 js_func = false) :
    map_functions reMatch js_func = SigPrim.reverse := by
  have h1 : knownShapes.find? (fun pr => reMatch pr.1 js_func) = none := by
    rw [List.find?_eq_none]
    intro pr hpr
    simp [h pr hpr]
  rw [map_functions, mapper, List.find?_append, h1]
  simp only [Option.none_or]
  cases h2 : List.find? (fun pr => reMatch pr.1 js_func) [permissiveShape] with
  | none => rfl
  | some pr =>
    have hmem : pr ∈ [permissiveShape] := List.mem_of_find?_eq_some h2
    simp only [List.mem_singleton] at hmem
    subst hmem
    rfl

/-- Witness for C8: with an oracle that matches nothing, every body (here
`"x"`) is classified as `reverse`. -/
theorem map_functions_fallback_witness :
    (∀ pr ∈ knownShapes,
      (fun _ _ => false : String → String → Bool) pr.1 "x" = false)
    ∧ map_functions (fun _ _ => false) "x" = SigPrim.reverse :=
  ⟨fun _ _ => rfl, map_functions_fallback (fun _ _ => false) "x"
    (fun _ _ => rfl)⟩

end Pytube
